import Mathlib

/-!
Shallow embedding of the `express-route-registry` routing core.

Embedded components (from the repository sources):
* `Route` (src/unnamed/part_001): pattern, methods, dispatch-chain lists,
  name derivation and canonical-path rendering;
* `RouteCollection` (src/lib/Routing/RouteCollection.js): ordered name → route
  mapping with bulk middleware / error-handler / prefix operations;
* `RouteCollectionBuilder` (src/lib/Routing/RouteCollectionBuilder.js): the
  recursive configuration-tree compiler with trait resolution;
* `RouteRegistry` (src/lib/Routing/RouteRegistry.js): flat indexes and
  collision detection, plus path matching.

The `path-to-regexp` pattern capability (tokenizer, matcher, generator) is an
external dependency of the repository, not part of its sources; it is modelled
from the specification's description of the boundary (pattern syntax, token
lists, generate/match behaviour).

Machine functions (middleware, error handlers, actions) are abstracted by the
type parameters `M`, `E`, `A`: the JavaScript arity/type validation of
`Route.validate` is enforced by these types in the embedding and is therefore
not re-modelled as a runtime check. Parameter converters do not affect any of
the verified properties and are omitted from the configuration channels.
-/

/-- Tagged error carrying a stable machine-readable code and a message,
mirroring `RouteRegistryError` (src/lib/Routing/RouteRegistryError.js). -/
structure RouteRegistryError where
  code : String
  message : String
deriving DecidableEq, Repr

/-- A token of a parsed path pattern, as produced by the external
`path-to-regexp` tokenizer: either a literal text run, or a named parameter
with its single-character textual prefix and its (possibly empty) regex
constraint text. -/
inductive PathToken where
  | literal (text : String)
  | parameter (pfx : String) (name : String) (constraint : String)
deriving DecidableEq, Repr

/-- Rendering of one token inside `Route._generateCanonicalRoutePath`
(src/unnamed/part_001): a literal token renders as its text, a parameter token
as its prefix followed by `:` and its name; regex constraint text is dropped. -/
def renderCanonicalToken : PathToken → String
  | .literal text => text
  | .parameter pfx name _ => pfx ++ ":" ++ name

/-- A pattern-name character: alphanumeric or underscore. -/
def isNameChar (c : Char) : Bool := c.isAlphanum || c = '_'

/-- Prepends the pending literal accumulator (held in reverse) as a literal
token when it is nonempty. -/
def flushLiteral (acc : List Char) (ts : List PathToken) : List PathToken :=
  if acc.isEmpty then ts else PathToken.literal (String.mk acc.reverse) :: ts

/-- Splits the prefix character off the pending literal accumulator: the
character directly before a parameter (`/` or `.`) becomes the parameter's
prefix. -/
def takePrefixChar (acc : List Char) : String × List Char :=
  match acc with
  | p :: acc2 => if p = '/' || p = '.' then (String.mk [p], acc2) else ("", acc)
  | [] => ("", acc)

/-- Modelled from the spec: the external `path-to-regexp` tokenizer
(`parse(pattern)`, §6), which is not part of the repository sources. It
produces, in source order, literal tokens and parameter tokens; `:name` and
`:name(regex)` give named parameters, a bare `(regex)` gives a positional
parameter named by its index of appearance, and the `/` (or `.`) character
directly before a parameter becomes the parameter's prefix. The `fuel`
argument only bounds recursion depth; one unit per consumed character
suffices. -/
def parsePatternAux (fuel : Nat) (idx : Nat) (acc : List Char) (cs : List Char) :
    List PathToken :=
  match fuel with
  | 0 => flushLiteral acc []
  | fuel + 1 =>
    match cs with
    | [] => flushLiteral acc []
    | ':' :: rest =>
        let pa := takePrefixChar acc
        let nameChars := rest.takeWhile isNameChar
        let rest2 := rest.dropWhile isNameChar
        let cr :=
          match rest2 with
          | '(' :: r2 => (String.mk (r2.takeWhile (fun c => c ≠ ')')),
                          (r2.dropWhile (fun c => c ≠ ')')).drop 1)
          | _ => ("", rest2)
        flushLiteral pa.2
          (PathToken.parameter pa.1 (String.mk nameChars) cr.1 ::
            parsePatternAux fuel idx [] cr.2)
    | '(' :: rest =>
        let pa := takePrefixChar acc
        let constraint := String.mk (rest.takeWhile (fun c => c ≠ ')'))
        let rest2 := (rest.dropWhile (fun c => c ≠ ')')).drop 1
        flushLiteral pa.2
          (PathToken.parameter pa.1 (toString idx) constraint ::
            parsePatternAux fuel (idx + 1) [] rest2)
    | c :: rest => parsePatternAux fuel idx (c :: acc) rest

/-- Modelled from the spec: `parse(pattern)` of the external pattern
capability (§6), applied to a whole pattern string. -/
def parsePattern (s : String) : List PathToken :=
  parsePatternAux (s.toList.length + 1) 0 [] s.toList

/-- Lower-cases a string, as JavaScript `toLowerCase` does for route names. -/
def lowercaseString (s : String) : String := s.map Char.toLower

/-- `Route._generateName` (src/unnamed/part_001) for the destination shapes
the claims exercise: a named free function gives its lower-cased name; an
anonymous function (`fname = none`) gives the methods joined by `|` followed
by one piece per pattern token — literal text with `/` characters stripped, or
the parameter name — all joined by `_`. (The controller/service branch, which
uses the controller type name, is not exercised by any claim and is not
modelled.) -/
def generateRouteName (methods : List String) (fname : Option String)
    (tokens : List PathToken) : String :=
  match fname with
  | some fn => lowercaseString fn
  | none =>
      let bits := String.intercalate "|" methods ::
        tokens.map (fun t =>
          match t with
          | .literal text => String.mk (text.toList.filter (fun c => c ≠ '/'))
          | .parameter _ name _ => name)
      String.intercalate "_" bits

/-- One compiled route (src/unnamed/part_001). The pattern is held as its
token list (the output of the external tokenizer); `canonical_route_path`,
cached by `compile()` in the source and recomputed by `setPattern`, is
modelled as the derived function `Route.canonicalRoutePath`. -/
structure Route (M E A : Type) where
  pattern : List PathToken
  methods : List String
  middleware : List M
  error_handlers : List E
  action : A
  name : String
  priority : Int
deriving DecidableEq, Repr

/-- The `Route` constructor followed by its immediate `compile()` call: the
name is the explicit option when given, otherwise derived by
`_generateName` from the (not yet prefixed) pattern. -/
def Route.construct {M E A : Type} (pattern : List PathToken)
    (methods : List String) (middleware : List M) (error_handlers : List E)
    (action : A) (fname : Option String) (nameOpt : Option String)
    (priority : Int) : Route M E A :=
  { pattern := pattern
    methods := methods
    middleware := middleware
    error_handlers := error_handlers
    action := action
    name := nameOpt.getD (generateRouteName methods fname pattern)
    priority := priority }

/-- `Route._generateCanonicalRoutePath`: each token rendered and joined with
the empty separator. -/
def Route.canonicalRoutePath {M E A : Type} (r : Route M E A) : String :=
  String.join (r.pattern.map renderCanonicalToken)

/-- `Route.setPattern`: replaces the pattern and recompiles. The cached
matcher and canonical path are derived functions here, and the name — already
set by the first compile — is kept. -/
def Route.setPattern {M E A : Type} (r : Route M E A)
    (pattern : List PathToken) : Route M E A :=
  { r with pattern := pattern }

/-- `Route.setPriority`. -/
def Route.setPriority {M E A : Type} (r : Route M E A) (p : Int) :
    Route M E A :=
  { r with priority := p }

/-- Request-time errors of `generate` (§4.1/§7): a required named parameter
is absent, or a value violates its declared constraint. -/
inductive GenerateError where
  | missingParameter (name : String)
  | constraintViolation (name : String)
deriving DecidableEq, Repr

/-- Modelled from the spec: the external generator `compile(pattern)` (§6),
which `Route.generate` delegates to. `regexTest c v` abstracts "value `v`
matches the regex constraint text `c`". Renders literal tokens verbatim and
substitutes each named parameter after its prefix, failing on a missing
parameter or a constraint violation. -/
def generateFromTokens (regexTest : String → String → Bool) :
    List PathToken → (String → Option String) → Except GenerateError String
  | [], _ => .ok ""
  | .literal text :: rest, params =>
      (generateFromTokens regexTest rest params).map (fun s => text ++ s)
  | .parameter pfx name constraint :: rest, params =>
      match params name with
      | none => .error (.missingParameter name)
      | some v =>
          if regexTest constraint v then
            (generateFromTokens regexTest rest params).map
              (fun s => pfx ++ (v ++ s))
          else .error (.constraintViolation name)

/-- Modelled from the spec: the external matcher `compile(pattern) → matcher`
(§6), which `Route.isMatch` delegates to. The anchored regex built from the
tokens accepts a string iff it decomposes into the literal texts and, for each
parameter, its prefix followed by a chunk matching the parameter's
constraint under `regexTest`; this is expressed by trying every split
point. -/
def tokensMatch (regexTest : String → String → Bool) :
    List PathToken → List Char → Bool
  | [], cs => cs.isEmpty
  | .literal text :: rest, cs =>
      text.toList.isPrefixOf cs &&
        tokensMatch regexTest rest (cs.drop text.toList.length)
  | .parameter pfx _ constraint :: rest, cs =>
      pfx.toList.isPrefixOf cs &&
        (List.range (cs.length + 1)).any (fun i =>
          regexTest constraint
              (String.mk ((cs.drop pfx.toList.length).take i)) &&
            tokensMatch regexTest rest ((cs.drop pfx.toList.length).drop i))

/-- `Route.generate`: delegates to the compiled generator. -/
def Route.generate {M E A : Type} (regexTest : String → String → Bool)
    (r : Route M E A) (params : String → Option String) :
    Except GenerateError String :=
  generateFromTokens regexTest r.pattern params

/-- `Route.isMatch`: true iff the compiled matcher accepts the path. -/
def Route.isMatch {M E A : Type} (regexTest : String → String → Bool)
    (r : Route M E A) (path : String) : Bool :=
  tokensMatch regexTest r.pattern path.toList

/-- First-match association-list lookup, the model of JavaScript
`key in obj` / `obj[key]` for the string-keyed objects of the sources. -/
def lookupKey {β : Type} : List (String × β) → String → Option β
  | [], _ => none
  | (k, v) :: rest, key => if k = key then some v else lookupKey rest key

/-- `RouteCollection` (src/lib/Routing/RouteCollection.js): an ordered
name → route mapping; JavaScript object key order is insertion order, so it is
held as an association list. -/
structure RouteCollection (M E A : Type) where
  routes : List (String × Route M E A)
deriving DecidableEq, Repr

/-- The empty collection. -/
def RouteCollection.empty {M E A : Type} : RouteCollection M E A := ⟨[]⟩

/-- `RouteCollection.add`: `delete` of the existing key followed by
re-insertion, which moves the name to the end (last write wins). -/
def RouteCollection.add {M E A : Type} (c : RouteCollection M E A)
    (route_name : String) (route : Route M E A) : RouteCollection M E A :=
  ⟨(c.routes.filter (fun p => p.1 ≠ route_name)) ++ [(route_name, route)]⟩

/-- `RouteCollection.get`. -/
def RouteCollection.get {M E A : Type} (c : RouteCollection M E A)
    (route_name : String) : Option (Route M E A) :=
  lookupKey c.routes route_name

/-- `RouteCollection.addCollection`: merges the other collection's entries in
its iteration order through `add`. -/
def RouteCollection.addCollection {M E A : Type} (c other : RouteCollection M E A) :
    RouteCollection M E A :=
  other.routes.foldl (fun acc p => acc.add p.1 p.2) c

/-- The `Object.keys(this.routes).forEach` mutation pattern shared by the bulk
operations: apply `f` to every route, keeping names and order. -/
def RouteCollection.mapRoutes {M E A : Type} (c : RouteCollection M E A)
    (f : Route M E A → Route M E A) : RouteCollection M E A :=
  ⟨c.routes.map (fun p => (p.1, f p.2))⟩

/-- `RouteCollection.prependMiddleware`: `unshift` onto every route's
middleware list. -/
def RouteCollection.prependMiddleware {M E A : Type} (c : RouteCollection M E A)
    (m : M) : RouteCollection M E A :=
  c.mapRoutes (fun r => { r with middleware := m :: r.middleware })

/-- `RouteCollection.addMiddleware`: `push` onto every route's middleware
list. -/
def RouteCollection.addMiddleware {M E A : Type} (c : RouteCollection M E A)
    (m : M) : RouteCollection M E A :=
  c.mapRoutes (fun r => { r with middleware := r.middleware ++ [m] })

/-- `RouteCollection.prependAllMiddleware`: `slice().reverse().forEach` of
single prepends, so the given list ends up in front in its own order. -/
def RouteCollection.prependAllMiddleware {M E A : Type}
    (c : RouteCollection M E A) (ms : List M) : RouteCollection M E A :=
  ms.reverse.foldl (fun acc m => acc.prependMiddleware m) c

/-- `RouteCollection.addErrorHandler`: `push` onto every route's
error-handler list. -/
def RouteCollection.addErrorHandler {M E A : Type} (c : RouteCollection M E A)
    (e : E) : RouteCollection M E A :=
  c.mapRoutes (fun r => { r with error_handlers := r.error_handlers ++ [e] })

/-- `RouteCollection.addAllErrorHandlers`: `forEach` of single appends. -/
def RouteCollection.addAllErrorHandlers {M E A : Type}
    (c : RouteCollection M E A) (es : List E) : RouteCollection M E A :=
  es.foldl (fun acc e => acc.addErrorHandler e) c

/-- The inner `trimStuff` of `RouteCollection.addPrefix`: strips leading and
trailing `/` characters. -/
def trimSlashes (s : List Char) : List Char :=
  ((s.dropWhile (fun c => c = '/')).reverse.dropWhile (fun c => c = '/')).reverse

/-- JavaScript `String.trim`: strips leading and trailing whitespace. -/
def trimWhitespaceChars (s : List Char) : List Char :=
  ((s.dropWhile Char.isWhitespace).reverse.dropWhile Char.isWhitespace).reverse

/-- `RouteCollection.addPrefix`: trims whitespace and surrounding `/` from the
segment; when nonempty, prepends `/segment` to every route's pattern (a new
literal token in the token representation) and recompiles. -/
def RouteCollection.addPrefix {M E A : Type} (c : RouteCollection M E A)
    (pfx : String) : RouteCollection M E A :=
  let p := String.mk (trimSlashes (trimWhitespaceChars pfx.toList))
  if p = "" then c
  else c.mapRoutes (fun r => r.setPattern (PathToken.literal ("/" ++ p) :: r.pattern))

/-- A configuration value that may be a single item or an ordered list, as
distinguished by the sources' `Array.isArray` checks on the `middleware` and
`error` keys. -/
inductive OneOrMany (α : Type) where
  | one (a : α)
  | many (l : List α)
deriving DecidableEq, Repr

/-- A route destination of a configuration node
(`RouteCollectionBuilder._extractRoutes`), restricted to the
container-independent shapes: a bare function (shape 1; `fname` is the
JavaScript function's `.name`, `none` for an anonymous function), or an
object carrying an action with optional `name` and `middleware` overrides
(shape 2). The container/controller shapes resolve through the external
dependency-injection container and are not modelled. Note that
`RouteBuilder.with` wraps its single argument in a list, so an object-shape
`middleware` contributes one middleware entry. -/
inductive RouteDest (M A : Type) where
  | action (fname : Option String) (f : A)
  | withOptions (nameOpt : Option String) (mw : Option M) (fname : Option String) (f : A)
deriving DecidableEq, Repr

/-- The configuration of one trait under the root `traits` key: an object
from which `_extractTraits` reads only the `middleware` property; any
configured error handlers are present in the object but never read. -/
structure TraitConfig (M E : Type) where
  middleware : OneOrMany M
  error_handlers : List E
deriving DecidableEq, Repr

/-- A registered trait in the builder-wide trait table: `_extractTraits`
stores `{ middleware: trait_configuration.middleware }`, so only middleware
survives registration. -/
structure TraitEntry (M : Type) where
  middleware : OneOrMany M
deriving DecidableEq, Repr

/-- The builder-wide trait table `this.traits`, keyed by trait name. -/
abbrev TraitTable (M : Type) := List (String × TraitEntry M)

/-- One configuration-tree node: per-method destinations, `/`-prefixed child
nodes in key order, and the optional `middleware`, `error`, `is` and `traits`
keys. -/
inductive RouteConfig (M E A : Type) : Type where
  | node (dests : List (String × RouteDest M A))
         (children : List (String × RouteConfig M E A))
         (middleware : Option (OneOrMany M))
         (error : Option (OneOrMany E))
         (isTraits : Option (List String))
         (traits : Option (List (String × TraitConfig M E)))

/-- The `key.startsWith('/')` test of `_extractSubRoutes`: true iff the key's
first character is a path separator. -/
def startsWithSlash (s : String) : Bool :=
  match s.toList with
  | '/' :: _ => true
  | _ => false

/-- `RouteCollectionBuilder._extractTraits`: a `traits` key is only valid at
the root; at the root each trait configuration is registered in the trait
table under its name, keeping only its middleware. -/
def extractTraits {M E : Type} (isRoot : Bool)
    (traitsCfg : Option (List (String × TraitConfig M E)))
    (table : TraitTable M) : Except RouteRegistryError (TraitTable M) :=
  match traitsCfg with
  | none => .ok table
  | some ts =>
      if isRoot then
        .ok (ts.foldl (fun tb p => (p.1, { middleware := p.2.middleware }) :: tb) table)
      else
        .error { code := "invalid_usage_of_trait_node",
                 message := "The \"traits\" node is only valid at the root of the configuration" }

/-- The fixed method iteration order of `_extractRoutes`. -/
def httpMethodOrder : List String := ["get", "post", "delete", "put", "patch"]

/-- Construction of one route inside `_extractRoutes`: `RouteBuilder[method]('')`
starts from the empty pattern, destination options are applied, and `build()`
constructs (and compiles) the `Route`. -/
def buildDestRoute {M E A : Type} (method : String) (dest : RouteDest M A) :
    Route M E A :=
  match dest with
  | .action fname f =>
      Route.construct (parsePattern "") [method] [] [] f fname none 0
  | .withOptions nameOpt mw fname f =>
      Route.construct (parsePattern "") [method]
        (match mw with | some m => [m] | none => []) [] f fname nameOpt 0

/-- `RouteCollectionBuilder._extractRoutes`: for each HTTP-method key present,
in the fixed method order, build the route and add it to the node's own
collection under its (possibly auto-derived) name. -/
def extractRoutes {M E A : Type} (dests : List (String × RouteDest M A))
    (c : RouteCollection M E A) : RouteCollection M E A :=
  httpMethodOrder.foldl (fun acc method =>
    match lookupKey dests method with
    | none => acc
    | some dest =>
        let r : Route M E A := buildDestRoute method dest
        acc.add r.name r) c

/-- `RouteCollectionBuilder._extractMiddleware`: a declared `middleware` key
is prepended — the whole array as one ordered unit, or the single value. -/
def extractMiddleware {M E A : Type} (mwCfg : Option (OneOrMany M))
    (c : RouteCollection M E A) : RouteCollection M E A :=
  match mwCfg with
  | none => c
  | some (.many l) => c.prependAllMiddleware l
  | some (.one m) => c.prependMiddleware m

/-- `RouteCollectionBuilder._extractErrorHandlers`: a declared `error` key is
appended — the whole array in order, or the single value. -/
def extractErrorHandlers {M E A : Type} (errCfg : Option (OneOrMany E))
    (c : RouteCollection M E A) : RouteCollection M E A :=
  match errCfg with
  | none => c
  | some (.many l) => c.addAllErrorHandlers l
  | some (.one e) => c.addErrorHandler e

/-- The middleware application of one resolved trait inside
`_extractInheritedTraits`: array middleware is prepended as a unit, single
middleware is prepended alone. -/
def applyTraitMiddleware {M E A : Type} (entry : TraitEntry M)
    (c : RouteCollection M E A) : RouteCollection M E A :=
  match entry.middleware with
  | .many l => c.prependAllMiddleware l
  | .one m => c.prependMiddleware m

/-- `RouteCollectionBuilder._extractInheritedTraits`: each name under `is`,
in order, is resolved from the trait table — an unregistered name aborts with
`invalid_trait_requested` — and the resolved trait's middleware is prepended.
No error handlers are applied: the table holds only middleware. -/
def extractInheritedTraits {M E A : Type} (table : TraitTable M)
    (isCfg : Option (List String)) (c : RouteCollection M E A) :
    Except RouteRegistryError (RouteCollection M E A) :=
  match isCfg with
  | none => .ok c
  | some names =>
      names.foldlM (fun acc n =>
        match lookupKey table n with
        | none =>
            .error { code := "invalid_trait_requested",
                     message := "There is no such trait registered: " ++ n ++ "." }
        | some entry => .ok (applyTraitMiddleware entry acc)) c

/-- `RouteCollectionBuilder._recursiveRouteBuilder`, with the parent-side
`addCollection` merge moved to the caller: trait registration (root only),
this node's own routes, the recursively built `/`-keyed children merged in
key order, then — on the way back up — prefix, middleware prepending, error
handler appending, and finally the `is`-inherited traits. The `fuel`
argument only bounds recursion depth (one unit per tree level). -/
def recursiveRouteBuilder {M E A : Type} (fuel : Nat) (table : TraitTable M)
    (isRoot : Bool) (cfg : RouteConfig M E A) (pfx : String) :
    Except RouteRegistryError (RouteCollection M E A) :=
  match fuel with
  | 0 => .error { code := "model_fuel_exhausted",
                  message := "configuration tree deeper than the provided fuel" }
  | fuel + 1 =>
      match cfg with
      | .node dests children mwCfg errCfg isCfg traitsCfg => do
          let table2 ← extractTraits isRoot traitsCfg table
          let c0 := extractRoutes dests RouteCollection.empty
          let c1 ← children.foldlM (fun acc p =>
              if startsWithSlash p.1 then do
                let sub ← recursiveRouteBuilder fuel table2 false p.2 p.1
                pure (acc.addCollection sub)
              else pure acc) c0
          let c2 := c1.addPrefix pfx
          let c3 := extractMiddleware mwCfg c2
          let c4 := extractErrorHandlers errCfg c3
          extractInheritedTraits table2 isCfg c4

/-- `RouteCollectionBuilder.build`: the recursion is started at the root with
an empty trait table and empty prefix, and the resulting collection is merged
into the fresh root collection. -/
def buildConfiguration {M E A : Type} (fuel : Nat) (cfg : RouteConfig M E A) :
    Except RouteRegistryError (RouteCollection M E A) := do
  let c ← recursiveRouteBuilder fuel [] true cfg ""
  pure (RouteCollection.empty.addCollection c)

/-- `RouteRegistry` (src/lib/Routing/RouteRegistry.js): the ordered route
list and the two uniqueness-enforcing indexes. -/
structure RouteRegistry (M E A : Type) where
  routes : List (Route M E A)
  routes_by_name : List (String × Route M E A)
  routes_by_canonical_path : List (String × Route M E A)
deriving DecidableEq, Repr

/-- A freshly constructed registry. -/
def RouteRegistry.empty {M E A : Type} : RouteRegistry M E A := ⟨[], [], []⟩

/-- The `method + " " + canonical_path` collision key of `RouteRegistry.add`. -/
def methodPathKey (method : String) (canonical : String) : String :=
  method ++ " " ++ canonical

/-- The path-collision error thrown by `RouteRegistry.add` for a key. -/
def pathCollisionError (key : String) : RouteRegistryError :=
  { code := "route_registry_path_collision",
    message := "Route canonical path collision on: \"" ++ key ++ "\"." }

/-- The name-collision error thrown by `RouteRegistry.add` for a name. -/
def nameCollisionError (route_name : String) : RouteRegistryError :=
  { code := "route_registry_name_collision",
    message := "Route name collision on: \"" ++ route_name ++ "\"." }

/-- The `methods.forEach` loop of `RouteRegistry.add`: each method's key is
checked and indexed in turn. A collision aborts the loop by throwing, leaving
the entries of the methods already processed in the index — the pair returned
is (thrown error if any, registry state at that point). -/
def addPathEntries {M E A : Type} (reg : RouteRegistry M E A)
    (methods : List String) (canonical : String) (route : Route M E A) :
    Option RouteRegistryError × RouteRegistry M E A :=
  match methods with
  | [] => (none, reg)
  | method :: rest =>
      let key := methodPathKey method canonical
      if (lookupKey reg.routes_by_canonical_path key).isSome then
        (some (pathCollisionError key), reg)
      else
        addPathEntries
          { reg with routes_by_canonical_path :=
              reg.routes_by_canonical_path ++ [(key, route)] }
          rest canonical route

/-- `RouteRegistry.add`: index every method + canonical-path key (throwing
`route_registry_path_collision` on a duplicate key), then check the name
(throwing `route_registry_name_collision` on a duplicate name), then index the
name and append the route to the ordered list. As in the source, a throw
leaves the mutations already performed in place; the returned pair is
(thrown error if any, resulting registry state). -/
def RouteRegistry.add {M E A : Type} (reg : RouteRegistry M E A)
    (route_name : String) (route : Route M E A) :
    Option RouteRegistryError × RouteRegistry M E A :=
  match addPathEntries reg route.methods route.canonicalRoutePath route with
  | (some e, reg2) => (some e, reg2)
  | (none, reg2) =>
      if (lookupKey reg2.routes_by_name route_name).isSome then
        (some (nameCollisionError route_name), reg2)
      else
        (none, { reg2 with
                  routes_by_name := reg2.routes_by_name ++ [(route_name, route)],
                  routes := reg2.routes ++ [route] })

/-- `RouteRegistry.match` (named `findMatch` here because `match` is a Lean
keyword): the first route of the ordered route list whose `isMatch` accepts
the path, or `none`. It is a total function: "no route found" is an absent
result, not an error. -/
def RouteRegistry.findMatch {M E A : Type} (regexTest : String → String → Bool)
    (reg : RouteRegistry M E A) (path : String) : Option (Route M E A) :=
  reg.routes.find? (fun r => Route.isMatch regexTest r path)

/-- Reassigns every stored route's priority (the only route attribute a
priority-based variant would consult), leaving everything else unchanged;
used to state that matching is insensitive to priorities. -/
def RouteRegistry.mapPriorities {M E A : Type} (reg : RouteRegistry M E A)
    (f : Route M E A → Int) : RouteRegistry M E A :=
  { routes := reg.routes.map (fun r => r.setPriority (f r)),
    routes_by_name := reg.routes_by_name.map (fun p => (p.1, p.2.setPriority (f p.2))),
    routes_by_canonical_path :=
      reg.routes_by_canonical_path.map (fun p => (p.1, p.2.setPriority (f p.2))) }

/-! ### Concrete configurations and fixtures used by the verified properties -/

/-- Three-level configuration: root middleware `[m1, m2]`, child node `/c`
with middleware `[m3]`, grandchild `/g` with middleware `[m4, m5]` and one
anonymous `get` route. -/
def cfgThreeLevels {M E A : Type} (m1 m2 m3 m4 m5 : M) (a : A) :
    RouteConfig M E A :=
  .node [] [("/c", .node []
        [("/g", .node [("get", .action none a)] []
            (some (.many [m4, m5])) none none none)]
        (some (.many [m3])) none none none)]
    (some (.many [m1, m2])) none none none

/-- Three-level configuration: grandchild `/g` error handlers `[e1, e2]` on
the node holding the route, parent `/c` single error handler `e3`, root error
handlers `[e4, e5]`. -/
def cfgErrorLevels {M E A : Type} (e1 e2 e3 e4 e5 : E) (a : A) :
    RouteConfig M E A :=
  .node [] [("/c", .node []
        [("/g", .node [("get", .action none a)] []
            none (some (.many [e1, e2])) none none)]
        none (some (.one e3)) none none)]
    none (some (.many [e4, e5])) none none

/-- Root declares trait `secure` with middleware `[m3, m4]` and its own
middleware `[m1, m2]`; the leaf `/leaf` holds the route, its own middleware
`[m5, m6]`, and opts in via `is: [secure]`. -/
def cfgTraitOrder {M E A : Type} (m1 m2 m3 m4 m5 m6 : M) (a : A) :
    RouteConfig M E A :=
  .node [] [("/leaf", .node [("get", .action none a)] []
        (some (.many [m5, m6])) none (some ["secure"]) none)]
    (some (.many [m1, m2])) none none
    (some [("secure", { middleware := OneOrMany.many [m3, m4], error_handlers := [] })])

/-- Root declares trait `t` configured with middleware `[7]` and error
handlers `[9]`, and opts in via `is: [t]` on its single anonymous `get`
route. -/
def cfgTraitErrDropped : RouteConfig Nat Nat Nat :=
  .node [("get", .action none 0)] [] none none (some ["t"])
    (some [("t", { middleware := OneOrMany.many [7], error_handlers := [9] })])

/-- Two anonymous-function `get` destinations without explicit names, one at
the root and one at child `/c`. -/
def cfgAnonDup {M E A : Type} (a b : A) : RouteConfig M E A :=
  .node [("get", .action none a)]
    [("/c", .node [("get", .action none b)] [] none none none none)]
    none none none none

/-- Replaces a parameter token's regex constraint text, leaving literal
tokens and the parameter's prefix and name unchanged. -/
def mapConstraintText (f : String → String) : PathToken → PathToken
  | .literal text => .literal text
  | .parameter pfx name constraint => .parameter pfx name (f constraint)

/-- A route over the pattern `/foo/:id(\d+)/bar/:slug(\s+)` of the canonical
path example. -/
def routeCanonicalExample : Route Nat Nat Nat :=
  Route.construct (parsePattern "/foo/:id(\\d+)/bar/:slug(\\s+)")
    ["get"] [] [] 0 none none 0

/-- A concrete regex semantics for witnesses: `\d+` accepts nonempty digit
strings, the empty (default) constraint accepts nonempty slash-free strings,
everything else rejects. -/
def digitRegexTest (constraint : String) (v : String) : Bool :=
  if constraint = "\\d+" then !v.isEmpty && v.toList.all Char.isDigit
  else if constraint = "" then !v.isEmpty && v.toList.all (fun c => c ≠ '/')
  else false

/-- A route over `/foo/:id(\d+)` used for the generate/match round-trip
witness. -/
def routeGenExample : Route Nat Nat Nat :=
  Route.construct (parsePattern "/foo/:id(\\d+)") ["get"] [] [] 0 none (some "gen") 0

/-- Parameter mapping `{id: "3"}`. -/
def paramsGenExample (n : String) : Option String :=
  if n = "id" then some "3" else none

/-- A named route on `/foo/:id` with method `get`. -/
def routeW1 : Route Nat Nat Nat :=
  Route.construct (parsePattern "/foo/:id") ["get"] [] [] 0 none (some "r1") 0

/-- Registry holding exactly `routeW1`. -/
def reg1 : RouteRegistry Nat Nat Nat :=
  (RouteRegistry.add RouteRegistry.empty "r1" routeW1).2

/-- A different route (constrained pattern `/foo/:id(\d+)`) whose canonical
path and method coincide with `routeW1`. -/
def routeW2 : Route Nat Nat Nat :=
  Route.construct (parsePattern "/foo/:id(\\d+)") ["get"] [] [] 0 none (some "r2") 0

/-- A route with a fresh pattern `/bar` but the already-used name `r1`. -/
def routeW3 : Route Nat Nat Nat :=
  Route.construct (parsePattern "/bar") ["get"] [] [] 0 none (some "r1") 0

/-- A two-method route `[put, get]` on `/foo/:id` whose `get` key collides
with `routeW1` while its `put` key is fresh. -/
def routeW4 : Route Nat Nat Nat :=
  Route.construct (parsePattern "/foo/:id") ["put", "get"] [] [] 0 none (some "r4") 0

/-- Registry with two routes for the matching witness: `r1` on `/foo/:id`
(default constraint) and a second route on `/bar`. -/
def regMatch : RouteRegistry Nat Nat Nat :=
  (RouteRegistry.add reg1 "rbar"
    (Route.construct (parsePattern "/bar") ["get"] [] [] 1 none (some "rbar") 0)).2

/-! ### Supporting lemmas -/

theorem stringToList_append (a b : String) : (a ++ b).toList = a.toList ++ b.toList := by
  cases a; cases b; rfl

theorem isPrefixOf_append_self (l t : List Char) : l.isPrefixOf (l ++ t) = true := by
  induction l with
  | nil => simp [List.isPrefixOf]
  | cons c l ih => simp [List.isPrefixOf, ih]

theorem prependAllMiddleware_routes {M E A : Type} (c : RouteCollection M E A) (ms : List M) :
    (c.prependAllMiddleware ms).routes =
      c.routes.map (fun p => (p.1, { p.2 with middleware := ms ++ p.2.middleware })) := by
  induction ms with
  | nil =>
      show c.routes = _
      rw [show (fun (p : String × Route M E A) =>
        (p.1, { p.2 with middleware := [] ++ p.2.middleware })) = id from rfl, List.map_id]
  | cons m ms ih =>
      have h1 : c.prependAllMiddleware (m :: ms) =
          (c.prependAllMiddleware ms).prependMiddleware m := by
        simp [RouteCollection.prependAllMiddleware, List.foldl_append]
      rw [h1]
      show ((c.prependAllMiddleware ms).routes.map _) = _
      rw [ih, List.map_map]
      rfl

theorem addAllErrorHandlers_routes {M E A : Type} (c : RouteCollection M E A) (es : List E) :
    (c.addAllErrorHandlers es).routes =
      c.routes.map (fun p => (p.1, { p.2 with error_handlers := p.2.error_handlers ++ es })) := by
  induction es generalizing c with
  | nil =>
      show c.routes = _
      rw [show (fun (p : String × Route M E A) =>
        (p.1, { p.2 with error_handlers := p.2.error_handlers ++ [] })) = id from by
          funext p
          simp
        , List.map_id]
  | cons e es ih =>
      show (RouteCollection.addAllErrorHandlers (c.addErrorHandler e) es).routes = _
      rw [ih]
      show ((c.routes.map _).map _) = _
      rw [List.map_map]
      simp [Function.comp, RouteCollection.addErrorHandler]

theorem lookupKey_append_of_none {β : Type} (l1 l2 : List (String × β)) (k : String)
    (h : lookupKey l1 k = none) : lookupKey (l1 ++ l2) k = lookupKey l2 k := by
  induction l1 with
  | nil => rfl
  | cons p l1 ih =>
      obtain ⟨k1, v1⟩ := p
      by_cases hk : k1 = k
      · simp [lookupKey, hk] at h
      · simp [lookupKey, hk] at h ⊢
        exact ih h

theorem lookupKey_append_of_some {β : Type} (l1 l2 : List (String × β)) (k : String) (v : β)
    (h : lookupKey l1 k = some v) : lookupKey (l1 ++ l2) k = some v := by
  induction l1 with
  | nil => simp [lookupKey] at h
  | cons p l1 ih =>
      obtain ⟨k1, v1⟩ := p
      by_cases hk : k1 = k
      · simp [lookupKey, hk] at h ⊢
        exact h
      · simp [lookupKey, hk] at h ⊢
        exact ih h

theorem lookupKey_map_of_mem {β : Type} (f : String → String) (r : β)
    (ms : List String) (m0 : String) (h : m0 ∈ ms) :
    lookupKey (ms.map (fun m => (f m, r))) (f m0) = some r := by
  induction ms with
  | nil => cases h
  | cons m ms ih =>
      by_cases he : f m = f m0
      · simp [lookupKey, he]
      · have hm : m0 ∈ ms := by
          rcases List.mem_cons.mp h with rfl | hm
          · exact absurd rfl he
          · exact hm
        simp [lookupKey, he, ih hm]

theorem addPathEntries_ok {M E A : Type} (ms : List String) (reg : RouteRegistry M E A)
    (canonical : String) (r : Route M E A)
    (hfresh : ∀ m ∈ ms, lookupKey reg.routes_by_canonical_path (methodPathKey m canonical) = none)
    (hnodup : (ms.map (fun m => methodPathKey m canonical)).Nodup) :
    addPathEntries reg ms canonical r =
      (none, { reg with routes_by_canonical_path :=
          reg.routes_by_canonical_path ++ ms.map (fun m => (methodPathKey m canonical, r)) }) := by
  induction ms generalizing reg with
  | nil => simp [addPathEntries]
  | cons m ms ih =>
      have hm := hfresh m (List.mem_cons_self m ms)
      have hnotin : methodPathKey m canonical ∉ ms.map (fun x => methodPathKey x canonical) :=
        (List.nodup_cons.mp hnodup).1
      have hstep : addPathEntries reg (m :: ms) canonical r =
          addPathEntries
            { reg with routes_by_canonical_path :=
                reg.routes_by_canonical_path ++ [(methodPathKey m canonical, r)] }
            ms canonical r := by
        simp [addPathEntries, hm]
      rw [hstep, ih]
      · simp
      · intro m2 hm2
        rw [lookupKey_append_of_none _ _ _ (hfresh m2 (List.mem_cons_of_mem m hm2))]
        have hne : methodPathKey m canonical ≠ methodPathKey m2 canonical := by
          intro hcontra
          exact hnotin (hcontra ▸ List.mem_map_of_mem _ hm2)
        simp [lookupKey, hne]
      · exact (List.nodup_cons.mp hnodup).2

theorem addPathEntries_partial {M E A : Type} (ms1 : List String) (reg : RouteRegistry M E A)
    (m : String) (ms2 : List String) (canonical : String) (r : Route M E A)
    (hfresh : ∀ x ∈ ms1, lookupKey reg.routes_by_canonical_path (methodPathKey x canonical) = none)
    (hnodup : (ms1.map (fun x => methodPathKey x canonical)).Nodup)
    (hcol : (lookupKey reg.routes_by_canonical_path (methodPathKey m canonical)).isSome = true) :
    addPathEntries reg (ms1 ++ m :: ms2) canonical r =
      (some (pathCollisionError (methodPathKey m canonical)),
       { reg with routes_by_canonical_path :=
           reg.routes_by_canonical_path ++ ms1.map (fun x => (methodPathKey x canonical, r)) }) := by
  induction ms1 generalizing reg with
  | nil => simp [addPathEntries, hcol]
  | cons m1 ms1 ih =>
      have hm1 := hfresh m1 (List.mem_cons_self m1 ms1)
      have hnotin : methodPathKey m1 canonical ∉ ms1.map (fun x => methodPathKey x canonical) :=
        (List.nodup_cons.mp hnodup).1
      have hstep : addPathEntries reg ((m1 :: ms1) ++ m :: ms2) canonical r =
          addPathEntries
            { reg with routes_by_canonical_path :=
                reg.routes_by_canonical_path ++ [(methodPathKey m1 canonical, r)] }
            (ms1 ++ m :: ms2) canonical r := by
        simp [addPathEntries, hm1]
      rw [hstep, ih]
      · simp
      · intro m2 hm2
        rw [lookupKey_append_of_none _ _ _ (hfresh m2 (List.mem_cons_of_mem m1 hm2))]
        have hne : methodPathKey m1 canonical ≠ methodPathKey m2 canonical := by
          intro hcontra
          exact hnotin (hcontra ▸ List.mem_map_of_mem _ hm2)
        simp [lookupKey, hne]
      · exact (List.nodup_cons.mp hnodup).2
      · obtain ⟨v, hv⟩ := Option.isSome_iff_exists.mp hcol
        rw [lookupKey_append_of_some _ _ _ _ hv]
        rfl

theorem addPathEntries_error_of_exists {M E A : Type} (ms : List String)
    (reg : RouteRegistry M E A) (canonical : String) (r : Route M E A)
    (h : ∃ m ∈ ms, (lookupKey reg.routes_by_canonical_path (methodPathKey m canonical)).isSome = true) :
    ∃ k, (addPathEntries reg ms canonical r).1 = some (pathCollisionError k) := by
  induction ms generalizing reg with
  | nil =>
      obtain ⟨m, hm, _⟩ := h
      cases hm
  | cons m0 ms ih =>
      by_cases h0 : (lookupKey reg.routes_by_canonical_path (methodPathKey m0 canonical)).isSome = true
      · exact ⟨methodPathKey m0 canonical, by simp [addPathEntries, h0]⟩
      · obtain ⟨m, hm, hsome⟩ := h
        have hm' : m ∈ ms := by
          rcases List.mem_cons.mp hm with rfl | hm2
          · exact absurd hsome h0
          · exact hm2
        have hk0 : lookupKey reg.routes_by_canonical_path (methodPathKey m0 canonical) = none := by
          cases hl : lookupKey reg.routes_by_canonical_path (methodPathKey m0 canonical) with
          | none => rfl
          | some v => rw [hl] at h0; simp at h0
        have hsome2 : (lookupKey
            (reg.routes_by_canonical_path ++ [(methodPathKey m0 canonical, r)])
            (methodPathKey m canonical)).isSome = true := by
          obtain ⟨v, hv⟩ := Option.isSome_iff_exists.mp hsome
          rw [lookupKey_append_of_some _ _ _ _ hv]
          rfl
        obtain ⟨k, hk⟩ := ih
          { reg with routes_by_canonical_path :=
              reg.routes_by_canonical_path ++ [(methodPathKey m0 canonical, r)] }
          ⟨m, hm', hsome2⟩
        refine ⟨k, ?_⟩
        have hstep : addPathEntries reg (m0 :: ms) canonical r =
            addPathEntries
              { reg with routes_by_canonical_path :=
                  reg.routes_by_canonical_path ++ [(methodPathKey m0 canonical, r)] }
              ms canonical r := by
          simp [addPathEntries, hk0]
        rw [hstep]
        exact hk

theorem extractInheritedTraits_error {M E A : Type} (table : TraitTable M)
    (pre : List String) (n : String) (post : List String) (c : RouteCollection M E A)
    (hpre : ∀ m ∈ pre, (lookupKey table m).isSome = true)
    (hn : lookupKey table n = none) :
    extractInheritedTraits table (some (pre ++ n :: post)) c =
      .error { code := "invalid_trait_requested",
               message := "There is no such trait registered: " ++ n ++ "." } := by
  revert hpre
  induction pre generalizing c with
  | nil =>
      intro hpre
      simp [extractInheritedTraits, List.foldlM, hn, Bind.bind, Except.bind]
  | cons m pre ih =>
      intro hpre
      obtain ⟨entry, he⟩ := Option.isSome_iff_exists.mp (hpre m (List.mem_cons_self m pre))
      have hstep : extractInheritedTraits table (some ((m :: pre) ++ n :: post)) c =
          extractInheritedTraits table (some (pre ++ n :: post)) (applyTraitMiddleware entry c) := by
        simp [extractInheritedTraits, List.foldlM, he, Bind.bind, Except.bind]
      rw [hstep]
      exact ih _ (fun x hx => hpre x (List.mem_cons_of_mem m hx))

theorem extractInheritedTraits_single {M E A : Type} (table : TraitTable M)
    (n : String) (l : List M) (c : RouteCollection M E A)
    (h : lookupKey table n = some { middleware := OneOrMany.many l }) :
    extractInheritedTraits table (some [n]) c =
      .ok ⟨c.routes.map (fun p => (p.1, { p.2 with middleware := l ++ p.2.middleware }))⟩ := by
  have h1 : extractInheritedTraits table (some [n]) c =
      .ok (applyTraitMiddleware { middleware := OneOrMany.many l } c) := by
    simp [extractInheritedTraits, List.foldlM, h, Bind.bind, Except.bind, Pure.pure, Except.pure]
  rw [h1]
  refine congrArg Except.ok ?_
  show c.prependAllMiddleware l = _
  calc c.prependAllMiddleware l = ⟨(c.prependAllMiddleware l).routes⟩ := rfl
    _ = _ := by rw [prependAllMiddleware_routes]

theorem extractTraits_drops_error_handlers {M E : Type} (isRoot : Bool)
    (ts : List (String × TraitConfig M E)) (tb : TraitTable M)
    (g : (String × TraitConfig M E) → List E) :
    extractTraits isRoot
        (some (ts.map (fun p => (p.1,
          { middleware := p.2.middleware, error_handlers := g p })))) tb =
      extractTraits isRoot (some ts) tb := by
  cases isRoot with
  | false => rfl
  | true =>
      simp [extractTraits, List.foldl_map]

theorem find_first_decomp {α : Type} (p : α → Bool) (l : List α) (r : α)
    (h : l.find? p = some r) :
    p r = true ∧ ∃ pre post, l = pre ++ r :: post ∧ ∀ x ∈ pre, p x = false := by
  induction l with
  | nil => simp [List.find?] at h
  | cons a l ih =>
      by_cases ha : p a = true
      · rw [List.find?_cons_of_pos _ ha] at h
        injection h with h
        subst h
        exact ⟨ha, [], l, rfl, by intro x hx; cases hx⟩
      · have ha' : p a = false := by
          cases hpa : p a with
          | false => rfl
          | true => exact absurd hpa ha
        rw [List.find?_cons_of_neg _ (by simp [ha'])] at h
        obtain ⟨hp, pre, post, hl, hpre⟩ := ih h
        refine ⟨hp, a :: pre, post, by rw [hl]; rfl, ?_⟩
        intro x hx
        rcases List.mem_cons.mp hx with rfl | hx2
        · exact ha'
        · exact hpre x hx2

theorem renderCanonical_mapConstraint (f : String → String) (t : PathToken) :
    renderCanonicalToken (mapConstraintText f t) = renderCanonicalToken t := by
  cases t <;> rfl

theorem tokensMatch_of_generate (rt : String → String → Bool) (toks : List PathToken) :
    ∀ (params : String → Option String) (s : String),
      generateFromTokens rt toks params = .ok s → tokensMatch rt toks s.toList = true := by
  induction toks with
  | nil =>
      intro params s h
      simp [generateFromTokens] at h
      subst h
      rfl
  | cons t rest ih =>
      intro params s h
      cases t with
      | literal text =>
          simp only [generateFromTokens] at h
          cases hg : generateFromTokens rt rest params with
          | error e => rw [hg] at h; simp [Except.map] at h
          | ok s2 =>
              rw [hg] at h
              simp [Except.map] at h
              subst h
              simp only [tokensMatch]
              rw [stringToList_append, List.drop_left]
              simp [isPrefixOf_append_self]
              exact ih params s2 hg
      | parameter pfx nm constraint =>
          simp only [generateFromTokens] at h
          cases hv : params nm with
          | none => rw [hv] at h; simp at h
          | some v =>
              rw [hv] at h
              simp only at h
              by_cases hc : rt constraint v = true
              · rw [if_pos hc] at h
                cases hg : generateFromTokens rt rest params with
                | error e => rw [hg] at h; simp [Except.map] at h
                | ok s2 =>
                    rw [hg] at h
                    simp [Except.map] at h
                    subst h
                    simp only [tokensMatch]
                    rw [stringToList_append, stringToList_append, Bool.and_eq_true]
                    refine ⟨isPrefixOf_append_self _ _, ?_⟩
                    rw [List.any_eq_true]
                    refine ⟨v.toList.length, ?_, ?_⟩
                    · rw [List.mem_range]
                      simp [List.length_append]
                      omega
                    · rw [List.drop_left, Bool.and_eq_true]
                      refine ⟨?_, ?_⟩
                      · rw [List.take_left]
                        exact hc
                      · rw [List.drop_left]
                        exact ih params s2 hg
              · rw [if_neg hc] at h
                cases h

/-! ### Verified properties -/

/-- C1: middleware inheritance is ancestor-first. First conjunct: for every
collection and middleware list declared at a node, `_extractMiddleware`
prepends the list as one ordered unit to every route already collected from
that node's subtree, so middleware declared higher in the tree always ends up
before middleware declared deeper. Second conjunct: root middleware
`[m1, m2]`, child middleware `[m3]` and grandchild middleware `[m4, m5]`
compile to exactly the middleware list `[m1, m2, m3, m4, m5]` on the
grandchild's terminal route. -/
theorem middleware_inheritance_ancestor_first {M E A : Type}
    (m1 m2 m3 m4 m5 : M) (a : A) :
    (∀ (c : RouteCollection M E A) (ms : List M),
        (extractMiddleware (some (OneOrMany.many ms)) c).routes =
          c.routes.map (fun p =>
            (p.1, { p.2 with middleware := ms ++ p.2.middleware }))) ∧
    ((buildConfiguration 3 (cfgThreeLevels (E := E) m1 m2 m3 m4 m5 a)).toOption.bind
        (fun c => (c.get "get").map Route.middleware)) = some [m1, m2, m3, m4, m5] := by
  constructor
  · intro c ms
    exact prependAllMiddleware_routes c ms
  · simp [cfgThreeLevels, buildConfiguration, recursiveRouteBuilder, extractTraits,
      extractRoutes, extractMiddleware, extractErrorHandlers, extractInheritedTraits,
      applyTraitMiddleware, buildDestRoute, httpMethodOrder, lookupKey, startsWithSlash,
      RouteCollection.empty, RouteCollection.add, RouteCollection.get,
      RouteCollection.addCollection, RouteCollection.mapRoutes,
      RouteCollection.prependMiddleware, RouteCollection.prependAllMiddleware,
      RouteCollection.addErrorHandler, RouteCollection.addAllErrorHandlers,
      RouteCollection.addPrefix, trimSlashes, trimWhitespaceChars,
      Route.construct, Route.setPattern, generateRouteName, parsePattern, parsePatternAux,
      flushLiteral, takePrefixChar, List.foldlM, Except.bind,
      Except.toOption, List.filter, String.intercalate, String.intercalate.go,
      Bind.bind, Function.comp, List.foldl, Option.bind, Pure.pure, Except.pure]

/-- C4: error-handler inheritance is child-first. First conjunct: for every
collection and error-handler list declared at a node, `_extractErrorHandlers`
appends the list in order after every handler already collected from the
node's subtree. Second conjunct: leaf handlers `[e1, e2]`, parent handler
`e3` and root handlers `[e4, e5]` compile to exactly the error-handler list
`[e1, e2, e3, e4, e5]` on the leaf's terminal route. -/
theorem error_handler_inheritance_child_first {M E A : Type}
    (e1 e2 e3 e4 e5 : E) (a : A) :
    (∀ (c : RouteCollection M E A) (es : List E),
        (extractErrorHandlers (some (OneOrMany.many es)) c).routes =
          c.routes.map (fun p =>
            (p.1, { p.2 with error_handlers := p.2.error_handlers ++ es }))) ∧
    ((buildConfiguration 3 (cfgErrorLevels (M := M) e1 e2 e3 e4 e5 a)).toOption.bind
        (fun c => (c.get "get").map Route.error_handlers)) = some [e1, e2, e3, e4, e5] := by
  constructor
  · intro c es
    exact addAllErrorHandlers_routes c es
  · simp [cfgErrorLevels, buildConfiguration, recursiveRouteBuilder, extractTraits,
      extractRoutes, extractMiddleware, extractErrorHandlers, extractInheritedTraits,
      applyTraitMiddleware, buildDestRoute, httpMethodOrder, lookupKey, startsWithSlash,
      RouteCollection.empty, RouteCollection.add, RouteCollection.get,
      RouteCollection.addCollection, RouteCollection.mapRoutes,
      RouteCollection.prependMiddleware, RouteCollection.prependAllMiddleware,
      RouteCollection.addErrorHandler, RouteCollection.addAllErrorHandlers,
      RouteCollection.addPrefix, trimSlashes, trimWhitespaceChars,
      Route.construct, Route.setPattern, generateRouteName, parsePattern, parsePatternAux,
      flushLiteral, takePrefixChar, List.foldlM, Except.bind,
      Except.toOption, List.filter, String.intercalate, String.intercalate.go,
      Bind.bind, Function.comp, List.foldl, Option.bind, Pure.pure, Except.pure]

/-- C5: middleware contributed by a trait at the level where a node opts in
via `is` is ordered after every ancestor's middleware and before the node's
own explicit middleware: with trait `secure` carrying `[m3, m4]`, root
middleware `[m1, m2]`, and a leaf with its own middleware `[m5, m6]` and
`is: [secure]`, the leaf's route compiles to exactly
`[m1, m2, m3, m4, m5, m6]`. -/
theorem trait_middleware_between_ancestors_and_own {M E A : Type}
    (m1 m2 m3 m4 m5 m6 : M) (a : A) :
    ((buildConfiguration 2 (cfgTraitOrder (E := E) m1 m2 m3 m4 m5 m6 a)).toOption.bind
        (fun c => (c.get "get").map Route.middleware)) = some [m1, m2, m3, m4, m5, m6] := by
  simp [cfgTraitOrder, buildConfiguration, recursiveRouteBuilder, extractTraits,
    extractRoutes, extractMiddleware, extractErrorHandlers, extractInheritedTraits,
    applyTraitMiddleware, buildDestRoute, httpMethodOrder, lookupKey, startsWithSlash,
    RouteCollection.empty, RouteCollection.add, RouteCollection.get,
    RouteCollection.addCollection, RouteCollection.mapRoutes,
    RouteCollection.prependMiddleware, RouteCollection.prependAllMiddleware,
    RouteCollection.addErrorHandler, RouteCollection.addAllErrorHandlers,
    RouteCollection.addPrefix, trimSlashes, trimWhitespaceChars,
    Route.construct, Route.setPattern, generateRouteName, parsePattern, parsePatternAux,
    flushLiteral, takePrefixChar, List.foldlM, Except.bind,
    Except.toOption, List.filter, String.intercalate, String.intercalate.go,
    Bind.bind, Function.comp, List.foldl, Option.bind, Pure.pure, Except.pure]

/-- C10: a route built from a bare anonymous-function destination with no
explicit name is constructed on the empty pattern before any prefix is
applied, so its auto-derived name is the HTTP method string alone (first
conjunct, for any action); consequently in a tree with two such `get` routes
at different nodes the compiled collection holds a single entry named `get`
whose action is the later (child) one — the child's route, carrying the
prefixed pattern `/c`, silently replaced the root's during the merge. -/
theorem anonymous_route_names_collide {M E A : Type} (a b : A) :
    ((Route.construct (M := M) (E := E) (parsePattern "") ["get"] [] [] a none none 0).name
        = "get") ∧
    ((buildConfiguration 2 (cfgAnonDup (M := M) (E := E) a b)).toOption.map
        (fun c => c.routes.map Prod.fst)) = some ["get"] ∧
    ((buildConfiguration 2 (cfgAnonDup (M := M) (E := E) a b)).toOption.bind
        (fun c => (c.get "get").map Route.action)) = some b ∧
    ((buildConfiguration 2 (cfgAnonDup (M := M) (E := E) a b)).toOption.bind
        (fun c => (c.get "get").map Route.pattern)) = some [PathToken.literal "/c"] := by
  refine ⟨rfl, ?_, ?_, ?_⟩ <;>
    simp [cfgAnonDup, buildConfiguration, recursiveRouteBuilder, extractTraits,
      extractRoutes, extractMiddleware, extractErrorHandlers, extractInheritedTraits,
      applyTraitMiddleware, buildDestRoute, httpMethodOrder, lookupKey, startsWithSlash,
      RouteCollection.empty, RouteCollection.add, RouteCollection.get,
      RouteCollection.addCollection, RouteCollection.mapRoutes,
      RouteCollection.prependMiddleware, RouteCollection.prependAllMiddleware,
      RouteCollection.addErrorHandler, RouteCollection.addAllErrorHandlers,
      RouteCollection.addPrefix, trimSlashes, trimWhitespaceChars,
      Route.construct, Route.setPattern, generateRouteName, parsePattern, parsePatternAux,
      flushLiteral, takePrefixChar, List.foldlM, Except.bind,
      Except.toOption, List.filter, String.intercalate, String.intercalate.go,
      Bind.bind, Function.comp, List.foldl, Option.bind, Pure.pure, Except.pure]

/-- C2 counterexample: a trait configured with error handler `9` (and
middleware `[7]`), opted into via `is: [t]`, yields a route whose
error-handler list is `[]` — not `[9]` as the claim's appended-error-handlers
clause predicts — while the trait middleware is applied. -/
theorem trait_error_handlers_dropped_cex :
    ((buildConfiguration 1 cfgTraitErrDropped).toOption.bind
        (fun c => (c.get "get").map Route.error_handlers)) = some [] ∧
    ((buildConfiguration 1 cfgTraitErrDropped).toOption.bind
        (fun c => (c.get "get").map Route.middleware)) = some [7] ∧
    some ([] : List Nat) ≠ some [9] :=
  ⟨by decide, by decide, by decide⟩

/-- C2 (amended): for a node declaring `is: [t1..tk]`, each named trait is
resolved from the trait table in order — an absent name fails with the
`invalid_trait_requested` error after the earlier names resolved (second
conjunct) — and a resolved trait's middleware list is prepended as a unit to
every route of the node's Collection, leaving every route's error handlers
unchanged (first conjunct); trait error handlers are never applied, because
`_extractTraits` registers only the middleware of a trait configuration and
discards its error handlers (third conjunct). -/
theorem trait_resolution_middleware_only {M E A : Type} (table : TraitTable M)
    (c : RouteCollection M E A) (n : String) (l : List M)
    (pre post : List String) (ts : List (String × TraitConfig M E))
    (tb : TraitTable M) (g : (String × TraitConfig M E) → List E) :
    ((lookupKey table n = some { middleware := OneOrMany.many l }) →
        extractInheritedTraits table (some [n]) c =
          .ok ⟨c.routes.map (fun p =>
            (p.1, { p.2 with middleware := l ++ p.2.middleware }))⟩) ∧
    ((∀ m ∈ pre, (lookupKey table m).isSome = true) →
        lookupKey table n = none →
        extractInheritedTraits table (some (pre ++ n :: post)) c =
          .error { code := "invalid_trait_requested",
                   message := "There is no such trait registered: " ++ n ++ "." }) ∧
    (extractTraits true (some (ts.map (fun p => (p.1,
          { middleware := p.2.middleware, error_handlers := g p })))) tb =
      extractTraits true (some ts) tb) :=
  ⟨fun h => extractInheritedTraits_single table n l c h,
   fun hpre hn => extractInheritedTraits_error table pre n post c hpre hn,
   extractTraits_drops_error_handlers true ts tb g⟩

/-- Witness for the amended C2 theorem at a concrete trait table. -/
theorem trait_resolution_middleware_only_witness :
    (extractInheritedTraits [("t", { middleware := OneOrMany.many [5] })] (some ["t"])
        (RouteCollection.empty (M := Nat) (E := Nat) (A := Nat)) =
      .ok ⟨(RouteCollection.empty (M := Nat) (E := Nat) (A := Nat)).routes.map
        (fun p => (p.1, { p.2 with middleware := [5] ++ p.2.middleware }))⟩) ∧
    (extractInheritedTraits [("t", { middleware := OneOrMany.many ([5] : List Nat) })]
        (some ["u"]) (RouteCollection.empty (M := Nat) (E := Nat) (A := Nat)) =
      .error { code := "invalid_trait_requested",
               message := "There is no such trait registered: " ++ "u" ++ "." }) :=
  ⟨(trait_resolution_middleware_only [("t", { middleware := OneOrMany.many [5] })]
      (RouteCollection.empty (M := Nat) (E := Nat) (A := Nat)) "t" [5] [] [] [] []
      (fun _ => [])).1 (by decide),
   (trait_resolution_middleware_only [("t", { middleware := OneOrMany.many [5] })]
      (RouteCollection.empty (M := Nat) (E := Nat) (A := Nat)) "u" [5] [] [] [] []
      (fun _ => [])).2.1 (by simp) (by decide)⟩

/-- C6: the canonical route path renders exactly one piece per pattern token
in source order (second conjunct), the rendering is independent of any regex
constraint text in the tokens (first conjunct), and the pattern
`/foo/:id(\d+)/bar/:slug(\s+)` has canonical path `/foo/:id/bar/:slug`
(third conjunct). -/
theorem canonical_path_token_rendering :
    (∀ (toks : List PathToken) (f : String → String),
        String.join ((toks.map (mapConstraintText f)).map renderCanonicalToken) =
          String.join (toks.map renderCanonicalToken)) ∧
    (∀ toks : List PathToken,
        (toks.map renderCanonicalToken).length = toks.length) ∧
    routeCanonicalExample.canonicalRoutePath = "/foo/:id/bar/:slug" := by
  refine ⟨?_, ?_, by decide⟩
  · intro toks f
    have hfun : (renderCanonicalToken ∘ mapConstraintText f) = renderCanonicalToken :=
      funext (renderCanonical_mapConstraint f)
    rw [List.map_map, hfun]
  · intro toks
    simp

/-- C7: `generate` and `isMatch` round-trip — whenever `generate` succeeds
(every required parameter present and every constraint satisfied under the
regex semantics `rt`), the generated path is accepted by the same route's
matcher. -/
theorem generate_isMatch_roundtrip {M E A : Type} (rt : String → String → Bool)
    (r : Route M E A) (params : String → Option String) (s : String)
    (h : Route.generate rt r params = .ok s) :
    Route.isMatch rt r s = true :=
  tokensMatch_of_generate rt r.pattern params s h

/-- Witness for the round-trip theorem on `/foo/:id(\d+)` with `{id: "3"}`. -/
theorem generate_isMatch_roundtrip_witness :
    Route.generate digitRegexTest routeGenExample paramsGenExample = .ok "/foo/3" ∧
    Route.isMatch digitRegexTest routeGenExample "/foo/3" = true :=
  ⟨rfl,
   generate_isMatch_roundtrip digitRegexTest routeGenExample paramsGenExample "/foo/3" rfl⟩

/-- C3: `RouteRegistry.add` fails with the path-collision error when some
method's `method + canonical path` key is already indexed (first conjunct);
with all keys fresh it fails with the name-collision error when the name is
already indexed, regardless of the routes' patterns (second conjunct); and
otherwise it indexes the route under its name and under every method key and
appends it to the ordered route list (third conjunct). -/
theorem registry_add_collision_rules {M E A : Type} (reg : RouteRegistry M E A)
    (nm : String) (route : Route M E A) :
    ((∃ m ∈ route.methods,
        (lookupKey reg.routes_by_canonical_path
            (methodPathKey m route.canonicalRoutePath)).isSome = true) →
      ∃ k, (reg.add nm route).1 = some (pathCollisionError k)) ∧
    ((∀ m ∈ route.methods,
        lookupKey reg.routes_by_canonical_path
            (methodPathKey m route.canonicalRoutePath) = none) →
      (route.methods.map (fun m => methodPathKey m route.canonicalRoutePath)).Nodup →
      (lookupKey reg.routes_by_name nm).isSome = true →
      (reg.add nm route).1 = some (nameCollisionError nm)) ∧
    ((∀ m ∈ route.methods,
        lookupKey reg.routes_by_canonical_path
            (methodPathKey m route.canonicalRoutePath) = none) →
      (route.methods.map (fun m => methodPathKey m route.canonicalRoutePath)).Nodup →
      lookupKey reg.routes_by_name nm = none →
      reg.add nm route =
        (none,
          { routes := reg.routes ++ [route],
            routes_by_name := reg.routes_by_name ++ [(nm, route)],
            routes_by_canonical_path := reg.routes_by_canonical_path ++
              route.methods.map
                (fun m => (methodPathKey m route.canonicalRoutePath, route)) })) := by
  refine ⟨?_, ?_, ?_⟩
  · intro hex
    obtain ⟨k, hk⟩ :=
      addPathEntries_error_of_exists route.methods reg route.canonicalRoutePath route hex
    refine ⟨k, ?_⟩
    unfold RouteRegistry.add
    rcases hres : addPathEntries reg route.methods route.canonicalRoutePath route with ⟨oe, reg2⟩
    rw [hres] at hk
    simp at hk
    subst hk
    rfl
  · intro hfresh hnodup hname
    unfold RouteRegistry.add
    rw [addPathEntries_ok route.methods reg route.canonicalRoutePath route hfresh hnodup]
    simp [hname]
  · intro hfresh hnodup hname
    unfold RouteRegistry.add
    rw [addPathEntries_ok route.methods reg route.canonicalRoutePath route hfresh hnodup]
    simp [hname]

/-- Witness for the collision rules: a constrained pattern colliding on the
same canonical path, a same-name route with a different pattern, and a
successful add on the empty registry. -/
theorem registry_add_collision_rules_witness :
    (∃ k, (reg1.add "r2" routeW2).1 = some (pathCollisionError k)) ∧
    ((reg1.add "r1" routeW3).1 = some (nameCollisionError "r1")) ∧
    (RouteRegistry.empty.add "r1" routeW1 =
      (none,
        { routes := RouteRegistry.empty.routes ++ [routeW1],
          routes_by_name := RouteRegistry.empty.routes_by_name ++ [("r1", routeW1)],
          routes_by_canonical_path := RouteRegistry.empty.routes_by_canonical_path ++
            routeW1.methods.map
              (fun m => (methodPathKey m routeW1.canonicalRoutePath, routeW1)) })) :=
  ⟨(registry_add_collision_rules reg1 "r2" routeW2).1 (by decide),
   (registry_add_collision_rules reg1 "r1" routeW3).2.1 (by decide) (by decide) (by decide),
   (registry_add_collision_rules RouteRegistry.empty "r1" routeW1).2.2
      (by decide) (by decide) (by decide)⟩

/-- C9: a failing `RouteRegistry.add` leaves the registry mutated. If the add
fails with the name-collision error, every method key of the rejected route
has already been indexed in the resulting state (first conjunct); if a
multi-method route fails with the path-collision error on a later method, the
keys of the earlier methods remain indexed in the resulting state (second
conjunct). -/
theorem registry_add_failure_mutates {M E A : Type} (reg : RouteRegistry M E A)
    (nm : String) (route : Route M E A) (ms1 : List String) (m : String) (ms2 : List String) :
    ((∀ x ∈ route.methods,
        lookupKey reg.routes_by_canonical_path
            (methodPathKey x route.canonicalRoutePath) = none) →
      (route.methods.map (fun x => methodPathKey x route.canonicalRoutePath)).Nodup →
      (lookupKey reg.routes_by_name nm).isSome = true →
      (reg.add nm route).1 = some (nameCollisionError nm) ∧
        ∀ x ∈ route.methods,
          lookupKey (reg.add nm route).2.routes_by_canonical_path
              (methodPathKey x route.canonicalRoutePath) = some route) ∧
    (route.methods = ms1 ++ m :: ms2 →
      (∀ x ∈ ms1,
        lookupKey reg.routes_by_canonical_path
            (methodPathKey x route.canonicalRoutePath) = none) →
      (ms1.map (fun x => methodPathKey x route.canonicalRoutePath)).Nodup →
      (lookupKey reg.routes_by_canonical_path
          (methodPathKey m route.canonicalRoutePath)).isSome = true →
      (reg.add nm route).1 =
          some (pathCollisionError (methodPathKey m route.canonicalRoutePath)) ∧
        ∀ x ∈ ms1,
          lookupKey (reg.add nm route).2.routes_by_canonical_path
              (methodPathKey x route.canonicalRoutePath) = some route) := by
  constructor
  · intro hfresh hnodup hname
    unfold RouteRegistry.add
    rw [addPathEntries_ok route.methods reg route.canonicalRoutePath route hfresh hnodup]
    refine ⟨by simp [hname], ?_⟩
    intro m2 hm2
    simp only [hname, if_true]
    rw [lookupKey_append_of_none _ _ _ (hfresh m2 hm2)]
    exact lookupKey_map_of_mem _ route route.methods m2 hm2
  · intro hmeq hfresh hnodup hcol
    unfold RouteRegistry.add
    rw [hmeq, addPathEntries_partial ms1 reg m ms2 route.canonicalRoutePath route hfresh hnodup hcol]
    refine ⟨rfl, ?_⟩
    intro m2 hm2
    rw [lookupKey_append_of_none _ _ _ (hfresh m2 hm2)]
    exact lookupKey_map_of_mem _ route ms1 m2 hm2

/-- Witness for non-atomicity: a name collision that leaves the rejected
route's path key indexed, and a `[put, get]` route whose `get` key collides
while its `put` key stays indexed. -/
theorem registry_add_failure_mutates_witness :
    ((reg1.add "r1" routeW3).1 = some (nameCollisionError "r1") ∧
      ∀ x ∈ routeW3.methods,
        lookupKey (reg1.add "r1" routeW3).2.routes_by_canonical_path
            (methodPathKey x routeW3.canonicalRoutePath) = some routeW3) ∧
    ((reg1.add "r4" routeW4).1 =
        some (pathCollisionError (methodPathKey "get" routeW4.canonicalRoutePath)) ∧
      ∀ x ∈ ["put"],
        lookupKey (reg1.add "r4" routeW4).2.routes_by_canonical_path
            (methodPathKey x routeW4.canonicalRoutePath) = some routeW4) :=
  ⟨(registry_add_failure_mutates reg1 "r1" routeW3 [] "x" []).1
      (by decide) (by decide) (by decide),
   (registry_add_failure_mutates reg1 "r4" routeW4 ["put"] "get" []).2
      (by decide) (by decide) (by decide) (by decide)⟩

/-- C8: `match` returns the first route in registration order whose
`isMatch` accepts the path (first conjunct), returns the absent result
exactly when no registered route matches (second conjunct) — it is a total
function, so it never raises — and reassigning route priorities in any way
does not change which route is chosen (third conjunct). -/
theorem match_first_in_registration_order {M E A : Type}
    (rt : String → String → Bool) (reg : RouteRegistry M E A) (path : String) :
    (∀ r : Route M E A, RouteRegistry.findMatch rt reg path = some r →
        Route.isMatch rt r path = true ∧
        ∃ pre post, reg.routes = pre ++ r :: post ∧
          ∀ x ∈ pre, Route.isMatch rt x path = false) ∧
    (RouteRegistry.findMatch rt reg path = none ↔
        ∀ r ∈ reg.routes, Route.isMatch rt r path = false) ∧
    (∀ f : Route M E A → Int,
        RouteRegistry.findMatch rt (reg.mapPriorities f) path =
          (RouteRegistry.findMatch rt reg path).map (fun r => r.setPriority (f r))) := by
  refine ⟨?_, ?_, ?_⟩
  · intro r h
    exact find_first_decomp _ _ _ h
  · rw [RouteRegistry.findMatch, List.find?_eq_none]
    constructor
    · intro h r hr
      exact Bool.not_eq_true _ ▸ (by exact h r hr)
    · intro h r hr
      simp [h r hr]
  · intro f
    show (reg.routes.map _).find? _ = _
    rw [List.find?_map]
    rfl

/-- Witness for first-match: in a registry holding `/foo/:id` then `/bar`,
the path `/foo/3` is matched by the first route. -/
theorem match_first_in_registration_order_witness :
    Route.isMatch digitRegexTest routeW1 "/foo/3" = true ∧
    ∃ pre post, regMatch.routes = pre ++ routeW1 :: post ∧
      ∀ x ∈ pre, Route.isMatch digitRegexTest x "/foo/3" = false :=
  (match_first_in_registration_order digitRegexTest regMatch "/foo/3").1 routeW1 (by decide)
